import Mathlib

/-!
Verification of the XTF synchronization core.

This file gives a shallow embedding of the data model and the algorithms of
the XTF repository (src/XTF), and proves the testable properties stated in
its specification against that embedding:

* the adaptive chunked transfer with automatic bisection on the
  payload-too-large error code (src/XTF/api/sheet.py,
  methods upload_chunk_with_auto_split and append_chunk_with_auto_split);
* spreadsheet column addressing (column_number_to_letter and
  column_letter_to_number, src/XTF/api/sheet.py);
* the retry strategies and the request controller (src/XTF/core/control.py);
* key-hash indexing and the FULL / INCREMENTAL / OVERWRITE / CLONE
  reconciliation modes for the bitable target (src/XTF/core/converter.py and
  src/XTF/core/engine.py).

Modeling conventions: Python floats are modeled as rationals; the md5 digest
(an external library call, hashlib) is a parameter of every definition that
hashes; the HTTP transport is a parameter returning tagged outcomes; time is
modeled by accumulating the slept durations.  Loops are embedded with an
explicit iteration budget (fuel) so that every definition is executable, and
termination is proved as a theorem giving a sufficient budget.
-/

set_option autoImplicit false

namespace XTF

/-! ### Chunked sheet upload with automatic bisection (src/XTF/api/sheet.py) -/

/-- The distinguished payload-too-large error code
(field ERROR_CODE_REQUEST_TOO_LARGE = 90227 in sheet.py). -/
def ERROR_CODE_REQUEST_TOO_LARGE : Int := 90227

/-- Outcome of one send attempt.  In the source, `_batch_update_ranges` and
`_append_single_batch` return a pair `(success, error_code)`; `success` maps
to `SendOutcome.success` and `(False, code)` maps to `SendOutcome.failure code`. -/
inductive SendOutcome where
  | success
  | failure (code : Int)
deriving DecidableEq

/-- A chunk as handled by `_upload_chunk_with_auto_split`: the rows of data
plus the positional metadata recomputed on every bisection (the dict with
keys data / start_row / end_row / start_col / end_col in sheet.py).
`ρ` is the type of one row of cell values. -/
structure SheetChunk (ρ : Type) where
  data : List ρ
  start_row : Nat
  end_row : Nat
  start_col : Nat
  end_col : Nat
deriving DecidableEq

/-- The work-stack loop of `_upload_chunk_with_auto_split` (sheet.py lines
947-1017), with an explicit iteration budget `fuel`.  `oracle k c` is the
outcome the remote side returns for the `k`-th API call, which sends chunk
`c`; quantifying over `oracle` captures every possible sequence of
payload-too-large responses.  The result is `none` when the budget is
exhausted, and otherwise `some (ok, sent)` where `ok` is the boolean the
Python method returns and `sent` lists the data of the chunks whose send
succeeded, in the order they were sent.  The stack is a list whose head is
the top; pushing `c2` then `c1` in the source makes `c1` the next pop, hence
the order `c1 :: c2 :: rest` below.  The inter-call sleep
(`rate_limit_delay`) does not affect the data flow and is not modeled. -/
def uploadSplitLoop {ρ : Type} (oracle : Nat → SheetChunk ρ → SendOutcome) :
    Nat → Nat → List (SheetChunk ρ) → List (List ρ) → Option (Bool × List (List ρ))
  | _, _, [], sent => some (true, sent)
  | 0, _, _ :: _, _ => none
  | fuel + 1, k, c :: rest, sent =>
    match oracle k c with
    | .success => uploadSplitLoop oracle fuel (k + 1) rest (sent ++ [c.data])
    | .failure code =>
      if code = ERROR_CODE_REQUEST_TOO_LARGE then
        if c.data.length ≤ 1 then
          some (false, sent)
        else
          let mid := c.data.length / 2
          let d1 := c.data.take mid
          let d2 := c.data.drop mid
          let c1 : SheetChunk ρ :=
            { data := d1, start_row := c.start_row,
              end_row := c.start_row + d1.length - 1,
              start_col := c.start_col, end_col := c.end_col }
          let c2 : SheetChunk ρ :=
            { data := d2, start_row := c.start_row + mid,
              end_row := c.start_row + mid + d2.length - 1,
              start_col := c.start_col, end_col := c.end_col }
          uploadSplitLoop oracle fuel (k + 1) (c1 :: c2 :: rest) sent
      else
        some (false, sent)

/-- Iteration budget contributed by one chunk: enough for all bisections and
sends that can ever arise from it. -/
def chunkFuel {ρ : Type} (c : SheetChunk ρ) : Nat :=
  if c.data.length = 0 then 1 else 4 * c.data.length - 1

/-- Iteration budget for a whole work stack. -/
def stackFuel {ρ : Type} (stack : List (SheetChunk ρ)) : Nat :=
  (stack.map chunkFuel).sum

/-- `_upload_chunk_with_auto_split` itself: run the work-stack loop on the
single initial chunk, with a budget that (per `uploadSplitLoop_total`) is
always sufficient. -/
def upload_chunk_with_auto_split {ρ : Type} (oracle : Nat → SheetChunk ρ → SendOutcome)
    (chunk : SheetChunk ρ) : Option (Bool × List (List ρ)) :=
  uploadSplitLoop oracle (stackFuel [chunk]) 0 [chunk] []

/-- The work-stack loop of `_append_chunk_with_auto_split` (sheet.py lines
1024-1071).  Chunks here are bare row lists (the append range is fixed), and
the stack discipline and bisection are identical to the upload variant. -/
def appendSplitLoop {ρ : Type} (oracle : Nat → List ρ → SendOutcome) :
    Nat → Nat → List (List ρ) → List (List ρ) → Option (Bool × List (List ρ))
  | _, _, [], sent => some (true, sent)
  | 0, _, _ :: _, _ => none
  | fuel + 1, k, v :: rest, sent =>
    match oracle k v with
    | .success => appendSplitLoop oracle fuel (k + 1) rest (sent ++ [v])
    | .failure code =>
      if code = ERROR_CODE_REQUEST_TOO_LARGE then
        if v.length ≤ 1 then
          some (false, sent)
        else
          appendSplitLoop oracle fuel (k + 1)
            (v.take (v.length / 2) :: v.drop (v.length / 2) :: rest) sent
      else
        some (false, sent)

/-- Iteration budget contributed by one append chunk. -/
def valuesFuel {ρ : Type} (v : List ρ) : Nat :=
  if v.length = 0 then 1 else 4 * v.length - 1

/-- Iteration budget for an append work stack. -/
def appendStackFuel {ρ : Type} (stack : List (List ρ)) : Nat :=
  (stack.map valuesFuel).sum

/-- `_append_chunk_with_auto_split` itself. -/
def append_chunk_with_auto_split {ρ : Type} (oracle : Nat → List ρ → SendOutcome)
    (values : List ρ) : Option (Bool × List (List ρ)) :=
  appendSplitLoop oracle (appendStackFuel [values]) 0 [values] []

/-! ### Spreadsheet column addressing (src/XTF/api/sheet.py) -/

/-- The while loop of `column_number_to_letter` (sheet.py lines 180-187),
as a recursion: each iteration decrements, prepends `chr(65 + col_num % 26)`
and divides by 26; so the result for a positive `n` is the result for
`(n - 1) / 26` followed by that character.  Python `chr` is `Char.ofNat`.
Strings are modeled as lists of characters. -/
def columnNumberToLetterLoop (n : Nat) : List Char :=
  if h : n = 0 then []
  else columnNumberToLetterLoop ((n - 1) / 26) ++ [Char.ofNat (65 + (n - 1) % 26)]
termination_by n
decreasing_by
  exact Nat.lt_of_le_of_lt (Nat.div_le_self _ _) (Nat.sub_lt (Nat.pos_of_ne_zero h) one_pos)

/-- `column_number_to_letter` (sheet.py lines 180-187): the loop result, with
the final Python idiom `return result or "A"` mapping 0 to "A". -/
def column_number_to_letter (col_num : Nat) : List Char :=
  let result := columnNumberToLetterLoop col_num
  if result = [] then ['A'] else result

/-- `column_letter_to_number` (sheet.py lines 831-837): fold over the
upper-cased letters, `result = result * 26 + (ord(char) - ord('A') + 1)`.
Python ints may go negative for non-letter input, hence the result is an
integer; `ord` is `Char.toNat` and `ord('A') = 65`.  Python `str.upper()`
upper-cases each character, modeled by `Char.toUpper`. -/
def column_letter_to_number (col_letter : List Char) : Int :=
  col_letter.foldl (fun result char => result * 26 + ((char.toUpper.toNat : Int) - 65 + 1)) 0

/-! ### Retry strategies (src/XTF/core/control.py) -/

/-- `RetryConfig` (control.py lines 23-28).  Durations (Python floats) are
modeled as rationals; `max_retries` is a count. -/
structure RetryConfig where
  initial_delay : ℚ := 1/2
  max_retries : Nat := 3
  max_wait_time : Option ℚ := none
deriving DecidableEq

/-- The three concrete strategies: `ExponentialBackoffRetry` (with its
multiplier), `LinearGrowthRetry` (with its increment), `FixedWaitRetry`. -/
inductive RetryKind where
  | exponentialBackoff (multiplier : ℚ)
  | linearGrowth (increment : ℚ)
  | fixedWait
deriving DecidableEq

/-- A retry strategy object: a config plus the variant dispatched on at run
time in the source. -/
structure RetryStrategy where
  config : RetryConfig
  kind : RetryKind
deriving DecidableEq

/-- `get_delay` of the three strategy classes (control.py lines 66-70, 80-84,
90-93): exponential is `initial_delay * multiplier ** attempt`, linear is
`initial_delay + increment * attempt`, fixed is `initial_delay`; exponential
and linear clamp with `min(delay, max_wait_time)` when a ceiling is set. -/
def RetryStrategy.get_delay (s : RetryStrategy) (attempt : Nat) : ℚ :=
  match s.kind with
  | .exponentialBackoff multiplier =>
    let delay := s.config.initial_delay * multiplier ^ attempt
    match s.config.max_wait_time with
    | none => delay
    | some mw => min delay mw
  | .linearGrowth increment =>
    let delay := s.config.initial_delay + increment * attempt
    match s.config.max_wait_time with
    | none => delay
    | some mw => min delay mw
  | .fixedWait => s.config.initial_delay

/-- `RetryStrategy.should_retry` (control.py lines 42-48): stop once
`attempt >= max_retries`, or once `elapsed_time >= max_wait_time` when a
ceiling is configured. -/
def RetryStrategy.should_retry (s : RetryStrategy) (attempt : Nat) (elapsed_time : ℚ) : Bool :=
  if s.config.max_retries ≤ attempt then false
  else
    match s.config.max_wait_time with
    | some mw => if mw ≤ elapsed_time then false else true
    | none => true

/-- `RetryStrategy.wait` (control.py lines 50-56): compute the delay; when a
ceiling is configured and `delay > max_wait_time`, return False without
sleeping; otherwise sleep for `delay` and return True.  The pair returned is
(the boolean result, the duration actually slept). -/
def RetryStrategy.wait (s : RetryStrategy) (attempt : Nat) : Bool × ℚ :=
  let delay := s.get_delay attempt
  match s.config.max_wait_time with
  | some mw => if mw < delay then (false, 0) else (true, delay)
  | none => (true, delay)

/-! ### The request controller (src/XTF/core/control.py) -/

/-- Errors the remote boundary can signal, tagged by the taxonomy of the
specification: transient (rate limit, server error, network) versus
permanent (validation, authorization, malformed request). -/
inductive RemoteError where
  | transient (code : Nat)
  | permanent (code : Nat)
deriving DecidableEq

/-- An HTTP response as seen by `EnhancedAPIClient.call_api`; only the status
code matters to the control flow. -/
structure HttpResponse where
  status : Nat
deriving DecidableEq

/-- The `_make_request` closure inside `EnhancedAPIClient.call_api`
(control.py lines 328-338): status 429 raises a rate-limit exception, status
>= 500 raises a server-error exception, every other response — including
permanent 4xx failures — is returned without raising.  `transport k` is the
response to the `k`-th request. -/
def make_request (transport : Nat → HttpResponse) (k : Nat) : Except RemoteError HttpResponse :=
  let response := transport k
  if response.status = 429 then Except.error (RemoteError.transient 429)
  else if 500 ≤ response.status then Except.error (RemoteError.transient response.status)
  else Except.ok response

/-- Observable behavior of one `execute_request` run: the value returned or
the exception re-raised, the number of calls to the wrapped function, and the
retry sleeps performed, in order. -/
structure ExecTrace (ε α : Type) where
  result : Except ε α
  calls : Nat
  waits : List ℚ

/-- The `while True` loop of `RequestController.execute_request` (control.py
lines 280-315), with the rate-limit strategy absent (None) and an explicit
iteration budget.  `thunk k` is what the wrapped call does on its `k`-th
invocation (the source calls it once per iteration, so the call index equals
the attempt counter).  Elapsed time `time.time() - start_time` is modeled as
the accumulated sleep `clock`.  Every exception — transient or not — reaches
the same `except Exception` handler and the same retry decision. -/
def executeLoop {ε α : Type} (s : RetryStrategy) (thunk : Nat → Except ε α) :
    Nat → Nat → ℚ → List ℚ → Option (ExecTrace ε α)
  | 0, _, _, _ => none
  | fuel + 1, attempt, clock, waits =>
    match thunk attempt with
    | .ok a => some ⟨.ok a, attempt + 1, waits⟩
    | .error e =>
      if s.should_retry attempt clock then
        match s.wait attempt with
        | (true, d) => executeLoop s thunk fuel (attempt + 1) (clock + d) (waits ++ [d])
        | (false, _) => some ⟨.error e, attempt + 1, waits⟩
      else some ⟨.error e, attempt + 1, waits⟩

/-- `RequestController.execute_request` with an optional retry strategy and no
rate limiter.  With no strategy the first exception is re-raised at once
(`should_retry` is never consulted); with a strategy the loop runs, with a
budget that (per `executeLoop_total`) is always sufficient because the
attempt counter is strictly increasing and capped by `max_retries`. -/
def execute_request {ε α : Type} (retry_strategy : Option RetryStrategy)
    (thunk : Nat → Except ε α) : Option (ExecTrace ε α) :=
  match retry_strategy with
  | none =>
    match thunk 0 with
    | .ok a => some ⟨.ok a, 1, []⟩
    | .error e => some ⟨.error e, 1, []⟩
  | some s => executeLoop s thunk (s.config.max_retries + 1) 0 0 []

/-! ### Local rows, hashing and the remote record index
(src/XTF/core/converter.py) -/

/-- One cell of a local row (a pandas Series entry).  `str s` is a value
whose Python `str()` is `s`; `null` is pandas NaN, whose Python `str()` is
"nan". -/
inductive CellValue where
  | str (s : String)
  | null
deriving DecidableEq

/-- Python `str()` of the cell. -/
def CellValue.pyStr : CellValue → String
  | .str s => s
  | .null => "nan"

/-- A local row: an ordered mapping from column name to cell value.
`row.lookup col` is the Python test `col in row` combined with `row[col]`. -/
abbrev Row := List (String × CellValue)

/-- `DataConverter.get_index_value_hash` (converter.py lines 46-51):
`if index_column and index_column in row: return md5(str(row[index_column]))`.
`md5 s` stands for `hashlib.md5(s.encode()).hexdigest()`, an external
library call modeled as a parameter; Python truthiness of the column name
makes an empty string behave like None. -/
def get_index_value_hash (md5 : String → String) (row : Row)
    (index_column : Option String) : Option String :=
  match index_column with
  | none => none
  | some col =>
    if col = "" then none
    else
      match row.lookup col with
      | some value => some (md5 value.pyStr)
      | none => none

/-- One element of a list-valued remote field.  `dict text pyStr` is a Python
dict: `text` is the value under key 'text' when that key is present, `pyStr`
is the `str()` of the whole dict.  `other pyStr` is a non-dict element with
its `str()`. -/
inductive RichCell where
  | dict (text : Option String) (pyStr : String)
  | other (pyStr : String)
deriving DecidableEq

/-- A remote field value as inspected by `build_record_index`: a Python list
(with its elements and its own `str()`), a dict (with the optional 'text'
entry and its `str()`), or any other value (with its `str()`). -/
inductive FieldValue where
  | list (items : List RichCell) (pyStr : String)
  | dict (text : Option String) (pyStr : String)
  | scalar (pyStr : String)
deriving DecidableEq

/-- A remote bitable record: `record["record_id"]` and `record["fields"]`. -/
structure BitableRecord where
  record_id : String
  fields : List (String × FieldValue)
deriving DecidableEq

/-- The index-value extraction of `build_record_index` (converter.py lines
64-75): a non-empty list whose head is a dict with a 'text' key yields that
text, a non-empty list otherwise yields `str()` of its head, a dict with a
'text' key yields that text, and everything else — including an empty list —
yields `str()` of the raw value. -/
def extractIndexValue : FieldValue → String
  | .list (c :: _) _ =>
    match c with
    | .dict (some t) _ => t
    | .dict none s => s
    | .other s => s
  | .list [] s => s
  | .dict (some t) _ => t
  | .dict none s => s
  | .scalar s => s

/-- Python dict assignment `index[k] = v`: overwrite in place when the key
exists, append otherwise.  Lookup on such a list is `List.lookup` (first
match; keys are unique by construction). -/
def dictInsert {β : Type} (m : List (String × β)) (k : String) (v : β) :
    List (String × β) :=
  if m.any (fun p => p.1 == k) then
    m.map (fun p => if p.1 == k then (k, v) else p)
  else m ++ [(k, v)]

/-- `DataConverter.build_record_index` (converter.py lines 55-80): for each
record whose fields contain the index column, hash the extracted index value
and map the hash to the record; a falsy index column yields the empty index;
duplicate hashes resolve last-seen-wins through `dictInsert`. -/
def build_record_index (md5 : String → String) (records : List BitableRecord)
    (index_column : Option String) : List (String × BitableRecord) :=
  match index_column with
  | none => []
  | some col =>
    if col = "" then []
    else
      records.foldl (fun index record =>
        match record.fields.lookup col with
        | some raw => dictInsert index (md5 (extractIndexValue raw)) record
        | none => index) []

/-! ### Reconciliation modes for the bitable target (src/XTF/core/engine.py) -/

/-- The plan computed by `_sync_full_bitable` (engine.py lines 401-432):
the source accumulates `records_to_update` (each carrying the matched
record's `record_id`) and `records_to_create`, and issues no delete at all.
The classification decision depends only on the row's key hash; the field
payload built for each row by `DataConverter.convert_field_value_safe` does
not feed the branch and the plan therefore carries the source rows. -/
structure FullBitablePlan where
  toUpdate : List (String × Row)
  toCreate : List Row
  toDelete : List String
deriving DecidableEq

/-- The classification loop of `_sync_full_bitable` (engine.py lines
405-432): for each local row in order, compute the key hash; when the hash
is truthy and is a key of the existing index, the row becomes an update
paired with that record's `record_id`; otherwise it becomes a create. -/
def sync_full_bitable_classify (md5 : String → String)
    (existing_index : List (String × BitableRecord)) (index_column : Option String) :
    List Row → FullBitablePlan
  | [] => ⟨[], [], []⟩
  | row :: rest =>
    let p := sync_full_bitable_classify md5 existing_index index_column rest
    match get_index_value_hash md5 row index_column with
    | some h =>
      if h = "" then ⟨p.toUpdate, row :: p.toCreate, []⟩
      else
        match existing_index.lookup h with
        | some record => ⟨(record.record_id, row) :: p.toUpdate, p.toCreate, []⟩
        | none => ⟨p.toUpdate, row :: p.toCreate, []⟩
    | none => ⟨p.toUpdate, row :: p.toCreate, []⟩

/-- The filter loop of `_sync_incremental_bitable` (engine.py lines 664-679):
a row is created exactly when its key hash is falsy or not a key of the
existing index; matched rows are skipped entirely. -/
def sync_incremental_bitable_creates (md5 : String → String)
    (existing_index : List (String × BitableRecord)) (index_column : Option String) :
    List Row → List Row
  | [] => []
  | row :: rest =>
    let c := sync_incremental_bitable_creates md5 existing_index index_column rest
    match get_index_value_hash md5 row index_column with
    | some h =>
      if h = "" then row :: c
      else
        match existing_index.lookup h with
        | some _ => c
        | none => row :: c
    | none => row :: c

/-- The delete-collection loop of `_sync_overwrite_bitable` (engine.py lines
851-857): the record ids of the existing records matched by some local row's
key hash, in local-row order. -/
def overwriteDeleteIds (md5 : String → String)
    (existing_index : List (String × BitableRecord)) (col : String)
    (df : List Row) : List String :=
  df.filterMap (fun row =>
    match get_index_value_hash md5 row (some col) with
    | some h =>
      if h = "" then none
      else (existing_index.lookup h).map (fun record => record.record_id)
    | none => none)

/-- The batch slicing of `process_in_batches` (engine.py lines 247-251):
`items[i:i+batch_size]` for `i = 0, batch_size, 2*batch_size, ...`.  A zero
batch size makes Python `range` raise, modeled as the empty batch list. -/
def toBatches {β : Type} (batch_size : Nat) (items : List β) : List (List β) :=
  if h : batch_size = 0 ∨ items.length = 0 then []
  else items.take batch_size :: toBatches batch_size (items.drop batch_size)
termination_by items.length
decreasing_by
  simp only [not_or] at h
  simp only [List.length_drop]
  exact Nat.sub_lt (Nat.pos_of_ne_zero h.2) (Nat.pos_of_ne_zero h.1)

/-- A remote mutating call issued by the engine, with its payload. -/
inductive RemoteOp where
  | listRecords
  | batchDelete (ids : List String)
  | batchUpdate (records : List (String × Row))
  | batchCreate (rows : List Row)
deriving DecidableEq

/-- All record ids deleted across a call trace, in order. -/
def deletedIds : List RemoteOp → List String
  | [] => []
  | .batchDelete ids :: rest => ids ++ deletedIds rest
  | _ :: rest => deletedIds rest

/-- All rows created across a call trace, in order. -/
def createdRows : List RemoteOp → List Row
  | [] => []
  | .batchCreate rows :: rest => rows ++ createdRows rest
  | _ :: rest => createdRows rest

/-- `_sync_clone_bitable` (engine.py lines 1012-1040): list the existing
records, delete every existing `record_id` in batches, then create every
local row in batches.  No key hash is ever computed and no update is issued. -/
def sync_clone_bitable (existing_records : List BitableRecord) (df : List Row)
    (batch_size : Nat) : List RemoteOp :=
  RemoteOp.listRecords ::
    ((toBatches batch_size (existing_records.map (fun record => record.record_id))).map
        RemoteOp.batchDelete ++
      (toBatches batch_size df).map RemoteOp.batchCreate)

/-- `sync_overwrite` (engine.py lines 825-841) followed by
`_sync_overwrite_bitable` (lines 843-880).  The dispatcher checks
`if not self.config.index_column` — None or an empty string — and returns
False before anything else runs; only past that guard does the engine list
the remote records, delete the matched ids in batches and create every row
in batches.  `apiOk` gives the boolean success of each issued call
(`process_in_batches` succeeds when every batch call returns True), and the
result pairs the overall boolean with the trace of remote calls issued. -/
def sync_overwrite (md5 : String → String) (apiOk : RemoteOp → Bool)
    (index_column : Option String) (existing_records : List BitableRecord)
    (df : List Row) (batch_size : Nat) : Bool × List RemoteOp :=
  match index_column with
  | none => (false, [])
  | some col =>
    if col = "" then (false, [])
    else
      let existing_index := build_record_index md5 existing_records (some col)
      let deleteOps := (toBatches batch_size
        (overwriteDeleteIds md5 existing_index col df)).map RemoteOp.batchDelete
      let createOps := (toBatches batch_size df).map RemoteOp.batchCreate
      (deleteOps.all apiOk && createOps.all apiOk,
        RemoteOp.listRecords :: (deleteOps ++ createOps))

/-! ## Theorems -/

section ChunkTransfer

variable {ρ : Type}

/-- Every chunk on the work stack contributes a positive iteration budget. -/
theorem chunkFuel_pos (c : SheetChunk ρ) : 0 < chunkFuel c := by
  unfold chunkFuel
  split <;> omega

/-- Loop invariant of `uploadSplitLoop`: a run that returns True has sent,
after the chunks already in `sent`, exactly the concatenated data of the
stack, in order. -/
theorem uploadSplitLoop_flatten (oracle : Nat → SheetChunk ρ → SendOutcome) :
    ∀ (fuel k : Nat) (stack : List (SheetChunk ρ)) (sent out : List (List ρ)),
      uploadSplitLoop oracle fuel k stack sent = some (true, out) →
      out.flatten = sent.flatten ++ (stack.map SheetChunk.data).flatten := by
  intro fuel
  induction fuel with
  | zero =>
    intro k stack sent out h
    cases stack with
    | nil =>
      simp only [uploadSplitLoop, Option.some.injEq, Prod.mk.injEq] at h
      simp [← h.2]
    | cons c rest => simp [uploadSplitLoop] at h
  | succ fuel ih =>
    intro k stack sent out h
    cases stack with
    | nil =>
      simp only [uploadSplitLoop, Option.some.injEq, Prod.mk.injEq] at h
      simp [← h.2]
    | cons c rest =>
      rw [uploadSplitLoop] at h
      cases horacle : oracle k c with
      | success =>
        rw [horacle] at h
        have hrec := ih (k + 1) rest (sent ++ [c.data]) out h
        rw [hrec]
        simp [List.append_assoc]
      | failure code =>
        simp only [horacle] at h
        by_cases hcode : code = ERROR_CODE_REQUEST_TOO_LARGE
        · rw [if_pos hcode] at h
          by_cases hlen : c.data.length ≤ 1
          · rw [if_pos hlen] at h
            simp at h
          · rw [if_neg hlen] at h
            have hrec := ih (k + 1) _ sent out h
            rw [hrec]
            simp only [List.map_cons, List.flatten_cons]
            rw [← List.append_assoc (List.take (c.data.length / 2) c.data)
                (List.drop (c.data.length / 2) c.data), List.take_append_drop]
        · rw [if_neg hcode] at h
          simp at h

/-- The work-stack loop of the upload variant terminates within the budget
`stackFuel`. -/
theorem uploadSplitLoop_total (oracle : Nat → SheetChunk ρ → SendOutcome) :
    ∀ (fuel k : Nat) (stack : List (SheetChunk ρ)) (sent : List (List ρ)),
      stackFuel stack ≤ fuel → (uploadSplitLoop oracle fuel k stack sent).isSome := by
  intro fuel
  induction fuel with
  | zero =>
    intro k stack sent hle
    cases stack with
    | nil => simp [uploadSplitLoop]
    | cons c rest =>
      exfalso
      have hc := chunkFuel_pos c
      simp only [stackFuel, List.map_cons, List.sum_cons, Nat.le_zero] at hle
      omega
  | succ fuel ih =>
    intro k stack sent hle
    cases stack with
    | nil => simp [uploadSplitLoop]
    | cons c rest =>
      rw [uploadSplitLoop]
      simp only [stackFuel, List.map_cons, List.sum_cons] at hle
      cases oracle k c with
      | success =>
        apply ih
        have hc := chunkFuel_pos c
        simp only [stackFuel]
        omega
      | failure code =>
        by_cases hcode : code = ERROR_CODE_REQUEST_TOO_LARGE
        · simp only [hcode, if_pos rfl]
          by_cases hlen : c.data.length ≤ 1
          · simp [if_pos hlen]
          · simp only [if_neg hlen]
            apply ih
            have h2 : 2 ≤ c.data.length := by omega
            have hmid : 1 ≤ c.data.length / 2 :=
              (Nat.le_div_iff_mul_le (by norm_num)).mpr (by omega)
            have hmlt : c.data.length / 2 < c.data.length :=
              Nat.div_lt_self (by omega) (by norm_num)
            have hcf : chunkFuel c = 4 * c.data.length - 1 := by
              unfold chunkFuel
              rw [if_neg (by omega)]
            simp only [stackFuel, List.map_cons, List.sum_cons, chunkFuel,
              List.length_take, List.length_drop]
            rw [if_neg (by omega), if_neg (by omega)]
            have hmin : min (c.data.length / 2) c.data.length = c.data.length / 2 :=
              Nat.min_eq_left (Nat.le_of_lt hmlt)
            rw [hmin]
            rw [hcf] at hle
            omega
        · simp [if_neg hcode]

/-- Same loop invariant for the append variant. -/
theorem appendSplitLoop_flatten (oracle : Nat → List ρ → SendOutcome) :
    ∀ (fuel k : Nat) (stack : List (List ρ)) (sent out : List (List ρ)),
      appendSplitLoop oracle fuel k stack sent = some (true, out) →
      out.flatten = sent.flatten ++ stack.flatten := by
  intro fuel
  induction fuel with
  | zero =>
    intro k stack sent out h
    cases stack with
    | nil =>
      simp only [appendSplitLoop, Option.some.injEq, Prod.mk.injEq] at h
      simp [← h.2]
    | cons v rest => simp [appendSplitLoop] at h
  | succ fuel ih =>
    intro k stack sent out h
    cases stack with
    | nil =>
      simp only [appendSplitLoop, Option.some.injEq, Prod.mk.injEq] at h
      simp [← h.2]
    | cons v rest =>
      rw [appendSplitLoop] at h
      cases horacle : oracle k v with
      | success =>
        rw [horacle] at h
        have hrec := ih (k + 1) rest (sent ++ [v]) out h
        rw [hrec]
        simp [List.append_assoc]
      | failure code =>
        simp only [horacle] at h
        by_cases hcode : code = ERROR_CODE_REQUEST_TOO_LARGE
        · rw [if_pos hcode] at h
          by_cases hlen : v.length ≤ 1
          · rw [if_pos hlen] at h
            simp at h
          · rw [if_neg hlen] at h
            have hrec := ih (k + 1) _ sent out h
            rw [hrec]
            simp only [List.flatten_cons]
            rw [← List.append_assoc (List.take (v.length / 2) v)
                (List.drop (v.length / 2) v), List.take_append_drop]
        · rw [if_neg hcode] at h
          simp at h

/-- Positive budget for one append chunk. -/
theorem valuesFuel_pos (v : List ρ) : 0 < valuesFuel v := by
  unfold valuesFuel
  split <;> omega

/-- The work-stack loop of the append variant terminates within the budget
`appendStackFuel`. -/
theorem appendSplitLoop_total (oracle : Nat → List ρ → SendOutcome) :
    ∀ (fuel k : Nat) (stack : List (List ρ)) (sent : List (List ρ)),
      appendStackFuel stack ≤ fuel → (appendSplitLoop oracle fuel k stack sent).isSome := by
  intro fuel
  induction fuel with
  | zero =>
    intro k stack sent hle
    cases stack with
    | nil => simp [appendSplitLoop]
    | cons v rest =>
      exfalso
      have hv := valuesFuel_pos v
      simp only [appendStackFuel, List.map_cons, List.sum_cons, Nat.le_zero] at hle
      omega
  | succ fuel ih =>
    intro k stack sent hle
    cases stack with
    | nil => simp [appendSplitLoop]
    | cons v rest =>
      rw [appendSplitLoop]
      simp only [appendStackFuel, List.map_cons, List.sum_cons] at hle
      cases oracle k v with
      | success =>
        apply ih
        have hv := valuesFuel_pos v
        simp only [appendStackFuel]
        omega
      | failure code =>
        by_cases hcode : code = ERROR_CODE_REQUEST_TOO_LARGE
        · simp only [hcode, if_pos rfl]
          by_cases hlen : v.length ≤ 1
          · simp [if_pos hlen]
          · simp only [if_neg hlen]
            apply ih
            have hmid : 1 ≤ v.length / 2 :=
              (Nat.le_div_iff_mul_le (by norm_num)).mpr (by omega)
            have hmlt : v.length / 2 < v.length :=
              Nat.div_lt_self (by omega) (by norm_num)
            have hvf : valuesFuel v = 4 * v.length - 1 := by
              unfold valuesFuel
              rw [if_neg (by omega)]
            simp only [appendStackFuel, List.map_cons, List.sum_cons, valuesFuel,
              List.length_take, List.length_drop]
            rw [if_neg (by omega), if_neg (by omega)]
            rw [Nat.min_eq_left (Nat.le_of_lt hmlt)]
            rw [hvf] at hle
            omega
        · simp [if_neg hcode]

/-- C1: for every initial chunk and every sequence of remote responses, the
chunked upload (write and append variants) conserves the rows: when the
transfer reports success, the concatenation of the successfully sent
sub-chunks, in the order sent, equals the original row sequence — no row is
dropped, duplicated or reordered by bisection, for any chunk size down to 1. -/
theorem bisection_conservation {ρ : Type} :
    (∀ (oracle : Nat → SheetChunk ρ → SendOutcome) (chunk : SheetChunk ρ)
        (out : List (List ρ)),
      upload_chunk_with_auto_split oracle chunk = some (true, out) →
      out.flatten = chunk.data) ∧
    (∀ (oracle : Nat → List ρ → SendOutcome) (values : List ρ)
        (out : List (List ρ)),
      append_chunk_with_auto_split oracle values = some (true, out) →
      out.flatten = values) := by
  constructor
  · intro oracle chunk out h
    have := uploadSplitLoop_flatten oracle (stackFuel [chunk]) 0 [chunk] [] out h
    simpa using this
  · intro oracle values out h
    have := appendSplitLoop_flatten oracle (appendStackFuel [values]) 0 [values] [] out h
    simpa using this

/-- Witness for C1 at a concrete input: the oracle rejects any chunk of two
or more rows as too large, so the 2-row chunk is bisected once and both
1-row halves succeed. -/
theorem bisection_conservation_witness :
    ([[1], [2]] : List (List Nat)).flatten = [1, 2] ∧
    ([[3], [4]] : List (List Nat)).flatten = [3, 4] :=
  ⟨bisection_conservation.1
      (fun _ c => if 2 ≤ c.data.length then .failure 90227 else .success)
      ⟨[1, 2], 1, 2, 1, 1⟩ [[1], [2]] rfl,
    bisection_conservation.2
      (fun _ v => if 2 ≤ v.length then .failure 90227 else .success)
      [3, 4] [[3], [4]] rfl⟩

/-- C3: the chunked-upload work-stack loop terminates on every input — the
budget `stackFuel` always suffices, so the top-level call never runs out —
and a chunk of exactly 1 row that receives the payload-too-large error code
makes the whole upload return failure immediately instead of splitting
further. -/
theorem bisection_termination {ρ : Type} :
    (∀ (oracle : Nat → SheetChunk ρ → SendOutcome) (chunk : SheetChunk ρ),
      (upload_chunk_with_auto_split oracle chunk).isSome) ∧
    (∀ (oracle : Nat → SheetChunk ρ → SendOutcome) (chunk : SheetChunk ρ),
      chunk.data.length = 1 →
      oracle 0 chunk = SendOutcome.failure ERROR_CODE_REQUEST_TOO_LARGE →
      upload_chunk_with_auto_split oracle chunk = some (false, [])) := by
  constructor
  · intro oracle chunk
    exact uploadSplitLoop_total oracle (stackFuel [chunk]) 0 [chunk] [] le_rfl
  · intro oracle chunk hlen horacle
    have hf : stackFuel [chunk] = 3 := by
      simp [stackFuel, chunkFuel, hlen]
    rw [upload_chunk_with_auto_split, hf]
    rw [show (3 : Nat) = 2 + 1 from rfl, uploadSplitLoop, horacle]
    simp [hlen]

/-- Witness for C3 at a concrete input: a single-row chunk whose every send
is rejected as too large. -/
theorem bisection_termination_witness :
    (upload_chunk_with_auto_split
        (fun _ _ => SendOutcome.failure ERROR_CODE_REQUEST_TOO_LARGE)
        (⟨[0], 1, 1, 1, 1⟩ : SheetChunk Nat)).isSome ∧
    upload_chunk_with_auto_split
        (fun _ _ => SendOutcome.failure ERROR_CODE_REQUEST_TOO_LARGE)
        (⟨[0], 1, 1, 1, 1⟩ : SheetChunk Nat) = some (false, []) :=
  ⟨bisection_termination.1 _ _, bisection_termination.2 _ _ rfl rfl⟩

end ChunkTransfer

section ColumnLetters

/-- The characters produced by the conversion loop are the upper-case letters
A..Z, which `str.upper()` leaves unchanged and whose code point round-trips
through `chr`. -/
theorem toUpper_toNat_ofNat_letter (k : Nat) (hk : k < 26) :
    (Char.ofNat (65 + k)).toUpper.toNat = 65 + k := by
  interval_cases k <;> decide

/-- Evaluating the letter-to-number fold on the raw loop output inverts the
loop for every count, zero included. -/
theorem column_letter_to_number_loop (n : Nat) :
    column_letter_to_number (columnNumberToLetterLoop n) = n := by
  induction n using Nat.strong_induction_on with
  | _ n ih =>
    by_cases h0 : n = 0
    · subst h0
      rw [columnNumberToLetterLoop]
      simp [column_letter_to_number]
    · have hlt : (n - 1) / 26 < n :=
        Nat.lt_of_le_of_lt (Nat.div_le_self _ _) (Nat.sub_lt (Nat.pos_of_ne_zero h0) one_pos)
      have ihq := ih _ hlt
      rw [columnNumberToLetterLoop, dif_neg h0]
      unfold column_letter_to_number at ihq ⊢
      rw [List.foldl_append]
      rw [ihq]
      simp only [List.foldl_cons, List.foldl_nil]
      rw [toUpper_toNat_ofNat_letter _ (Nat.mod_lt _ (by norm_num))]
      have hdm := Nat.div_add_mod (n - 1) 26
      have h1 : 1 ≤ n := Nat.pos_of_ne_zero h0
      push_cast
      omega

/-- C10: spreadsheet column addressing round-trips — for every positive
column number `n`, `column_letter_to_number (column_number_to_letter n) = n`,
so the range strings recomputed on every bisection address columns
consistently. -/
theorem column_letter_roundtrip (n : Nat) (hn : 0 < n) :
    column_letter_to_number (column_number_to_letter n) = n := by
  have hne : columnNumberToLetterLoop n ≠ [] := by
    rw [columnNumberToLetterLoop, dif_neg (Nat.pos_iff_ne_zero.mp hn)]
    simp
  unfold column_number_to_letter
  rw [if_neg hne]
  exact column_letter_to_number_loop n

/-- Witness for C10 at the concrete column 28 (letters "AB"). -/
theorem column_letter_roundtrip_witness :
    0 < 28 ∧ column_letter_to_number (column_number_to_letter 28) = 28 :=
  ⟨by decide, column_letter_roundtrip 28 (by decide)⟩

end ColumnLetters

section RetryControl

/-- C5: for every retry strategy with a configured max-wait ceiling and every
attempt number, when the delay computed by `get_delay` for that attempt
exceeds the ceiling, the wait step aborts the retry — it reports False and
sleeps for nothing — rather than waiting a clamped amount. -/
theorem wait_aborts_over_ceiling (s : RetryStrategy) (attempt : Nat) (mw : ℚ)
    (hmw : s.config.max_wait_time = some mw) (hdelay : mw < s.get_delay attempt) :
    s.wait attempt = (false, 0) := by
  unfold RetryStrategy.wait
  rw [hmw]
  show (if mw < s.get_delay attempt then ((false : Bool), (0 : ℚ))
      else (true, s.get_delay attempt)) = (false, 0)
  rw [if_pos hdelay]

/-- Witness for C5: a fixed-wait strategy whose delay 5 exceeds its ceiling 1
aborts at attempt 0. -/
theorem wait_aborts_over_ceiling_witness :
    (1 : ℚ) < RetryStrategy.get_delay ⟨⟨5, 3, some 1⟩, RetryKind.fixedWait⟩ 0 ∧
    RetryStrategy.wait ⟨⟨5, 3, some 1⟩, RetryKind.fixedWait⟩ 0 = (false, 0) :=
  ⟨by decide, wait_aborts_over_ceiling ⟨⟨5, 3, some 1⟩, RetryKind.fixedWait⟩ 0 1 rfl (by decide)⟩

/-- C6: exponential backoff with initial delay 0.5, multiplier 2 and
max_retries 3 computes the delays 0.5, 1.0 and 2.0 for attempts 0, 1 and 2,
and its stop predicate refuses any attempt numbered 3 or later, whatever the
elapsed time. -/
theorem exponential_backoff_schedule :
    RetryStrategy.get_delay ⟨⟨1/2, 3, none⟩, RetryKind.exponentialBackoff 2⟩ 0 = 1/2 ∧
    RetryStrategy.get_delay ⟨⟨1/2, 3, none⟩, RetryKind.exponentialBackoff 2⟩ 1 = 1 ∧
    RetryStrategy.get_delay ⟨⟨1/2, 3, none⟩, RetryKind.exponentialBackoff 2⟩ 2 = 2 ∧
    ∀ (attempt : Nat) (elapsed : ℚ), 3 ≤ attempt →
      RetryStrategy.should_retry ⟨⟨1/2, 3, none⟩, RetryKind.exponentialBackoff 2⟩
        attempt elapsed = false := by
  refine ⟨?_, ?_, ?_, ?_⟩
  · norm_num [RetryStrategy.get_delay]
  · norm_num [RetryStrategy.get_delay]
  · norm_num [RetryStrategy.get_delay]
  · intro attempt elapsed ha
    unfold RetryStrategy.should_retry
    rw [if_pos ha]

/-- Witness for C6's stop predicate at the concrete 4th attempt. -/
theorem exponential_backoff_schedule_witness :
    (3 : Nat) ≤ 3 ∧
    RetryStrategy.should_retry ⟨⟨1/2, 3, none⟩, RetryKind.exponentialBackoff 2⟩ 3 0 = false :=
  ⟨by decide, exponential_backoff_schedule.2.2.2 3 0 (by decide)⟩

/-- One successful iteration of the `execute_request` loop. -/
theorem executeLoop_ok {ε α : Type} (s : RetryStrategy) (thunk : Nat → Except ε α)
    (fuel attempt : Nat) (clock : ℚ) (waits : List ℚ) (a : α)
    (hthunk : thunk attempt = Except.ok a) :
    executeLoop s thunk (fuel + 1) attempt clock waits = some ⟨Except.ok a, attempt + 1, waits⟩ := by
  rw [executeLoop]
  simp only [hthunk]

/-- One retried iteration of the `execute_request` loop: the thunk raises,
the strategy allows a retry and the wait succeeds, so the loop sleeps and
goes around with the next attempt number. -/
theorem executeLoop_error_step {ε α : Type} (s : RetryStrategy) (thunk : Nat → Except ε α)
    (fuel attempt : Nat) (clock : ℚ) (waits : List ℚ) (e : ε) (d : ℚ)
    (hthunk : thunk attempt = Except.error e)
    (hretry : s.should_retry attempt clock = true)
    (hwait : s.wait attempt = (true, d)) :
    executeLoop s thunk (fuel + 1) attempt clock waits =
      executeLoop s thunk fuel (attempt + 1) (clock + d) (waits ++ [d]) := by
  rw [executeLoop]
  simp only [hthunk, hretry, if_true, hwait]

/-- A stopping iteration of the `execute_request` loop: the thunk raises and
the strategy refuses a further retry, so the exception is re-raised. -/
theorem executeLoop_error_stop {ε α : Type} (s : RetryStrategy) (thunk : Nat → Except ε α)
    (fuel attempt : Nat) (clock : ℚ) (waits : List ℚ) (e : ε)
    (hthunk : thunk attempt = Except.error e)
    (hretry : s.should_retry attempt clock = false) :
    executeLoop s thunk (fuel + 1) attempt clock waits =
      some ⟨Except.error e, attempt + 1, waits⟩ := by
  rw [executeLoop]
  simp only [hthunk, hretry, Bool.false_eq_true, if_false]

/-- Any completed run of the `execute_request` loop has called the wrapped
function at least once per attempt already consumed. -/
theorem executeLoop_calls_lower {ε α : Type} (s : RetryStrategy) (thunk : Nat → Except ε α) :
    ∀ (fuel attempt : Nat) (clock : ℚ) (waits : List ℚ) (t : ExecTrace ε α),
      executeLoop s thunk fuel attempt clock waits = some t → attempt + 1 ≤ t.calls := by
  intro fuel
  induction fuel with
  | zero =>
    intro attempt clock waits t h
    simp [executeLoop] at h
  | succ fuel ih =>
    intro attempt clock waits t h
    rw [executeLoop] at h
    cases hth : thunk attempt with
    | ok a =>
      simp only [hth] at h
      cases h
      simp
    | error e =>
      simp only [hth] at h
      by_cases hr : s.should_retry attempt clock = true
      · rw [if_pos hr] at h
        cases hw : s.wait attempt with
        | mk b d =>
          rw [hw] at h
          cases b with
          | true =>
            have := ih (attempt + 1) (clock + d) (waits ++ [d]) t h
            omega
          | false =>
            cases h
            simp
      · rw [if_neg hr] at h
        cases h
        simp

/-- C7 counterexample: `execute_request` catches every exception with a bare
`except Exception` and retries it — a permanent (non-transient) error raised
by the wrapped thunk is retried the full 3 times, with backoff sleeps 0.5, 1
and 2 performed and 4 calls consumed, before being re-raised.  The claim
says it should propagate immediately with no wait and no budget consumed. -/
theorem execute_request_retries_permanent_error :
    execute_request (some ⟨⟨1/2, 3, none⟩, RetryKind.exponentialBackoff 2⟩)
        (fun _ => (Except.error (RemoteError.permanent 400) : Except RemoteError Unit)) =
      some ⟨Except.error (RemoteError.permanent 400), 4, [1/2, 1, 2]⟩ := by
  rw [execute_request]
  refine Eq.trans (executeLoop_error_step _ _ 3 0 0 [] (RemoteError.permanent 400) (1/2)
    rfl rfl (by norm_num [RetryStrategy.wait, RetryStrategy.get_delay])) ?_
  refine Eq.trans (executeLoop_error_step _ _ 2 1 _ _ (RemoteError.permanent 400) 1
    rfl rfl (by norm_num [RetryStrategy.wait, RetryStrategy.get_delay])) ?_
  refine Eq.trans (executeLoop_error_step _ _ 1 2 _ _ (RemoteError.permanent 400) 2
    rfl rfl (by norm_num [RetryStrategy.wait, RetryStrategy.get_delay])) ?_
  refine Eq.trans (executeLoop_error_stop _ _ 0 3 _ _ (RemoteError.permanent 400) rfl rfl) ?_
  norm_num

/-- C7 as amended: inside `execute_request` every exception raised by the
thunk — transient or permanent alike — is subject to the same retry policy
and consumes retry budget whenever the policy allows a retry; permanent
remote errors avoid the retry loop only upstream, because the API client
raises exceptions solely for rate-limit (429) and server-error (>= 500)
statuses and returns every other response as a value, so a permanent-error
response completes in exactly one call with no retry wait and no retry
budget consumed. -/
theorem permanent_responses_propagate :
    (∀ (retry_strategy : Option RetryStrategy) (transport : Nat → HttpResponse),
        (transport 0).status ≠ 429 → (transport 0).status < 500 →
        execute_request retry_strategy (make_request transport) =
          some ⟨Except.ok (transport 0), 1, []⟩) ∧
    (∀ (s : RetryStrategy) (thunk : Nat → Except RemoteError Unit) (e : RemoteError)
        (t : ExecTrace RemoteError Unit),
        thunk 0 = Except.error e → s.should_retry 0 0 = true → (s.wait 0).1 = true →
        execute_request (some s) thunk = some t → 2 ≤ t.calls) := by
  constructor
  · intro retry_strategy transport h429 h500
    have hmk : make_request transport 0 = Except.ok (transport 0) := by
      unfold make_request
      rw [if_neg h429, if_neg (by omega)]
    cases retry_strategy with
    | none =>
      rw [execute_request]
      simp only [hmk]
    | some s =>
      rw [execute_request]
      exact executeLoop_ok s _ s.config.max_retries 0 0 [] (transport 0) hmk
  · intro s thunk e t hth hr hw hexec
    rw [execute_request] at hexec
    cases hsw : s.wait 0 with
    | mk b d =>
      rw [hsw] at hw
      simp only at hw
      subst hw
      rw [executeLoop_error_step s thunk s.config.max_retries 0 0 [] e d hth hr hsw] at hexec
      have := executeLoop_calls_lower s thunk s.config.max_retries 1 (0 + d) ([] ++ [d]) t hexec
      omega

/-- Witness for the amended C7: a 403 (authorization failure) response is
returned by the client thunk without raising, so the controller completes in
one call with no wait. -/
theorem permanent_responses_propagate_witness :
    execute_request none (make_request fun _ => ⟨403⟩) =
      some ⟨Except.ok ⟨403⟩, 1, []⟩ ∧ (403 : Nat) ≠ 429 :=
  ⟨permanent_responses_propagate.1 none (fun _ => ⟨403⟩) (by decide) (by decide), by decide⟩

end RetryControl

section Engine

/-- Any key hash the classifiers see is an md5 digest of some string. -/
theorem get_index_value_hash_eq_md5 (md5 : String → String) (row : Row)
    (index_column : Option String) (h : String)
    (hh : get_index_value_hash md5 row index_column = some h) : ∃ s, h = md5 s := by
  cases index_column with
  | none => simp [get_index_value_hash] at hh
  | some col =>
    simp only [get_index_value_hash] at hh
    by_cases hc : col = ""
    · rw [if_pos hc] at hh
      simp at hh
    · rw [if_neg hc] at hh
      cases hl : row.lookup col with
      | none =>
        rw [hl] at hh
        simp at hh
      | some v =>
        rw [hl] at hh
        simp only [Option.some.injEq] at hh
        exact ⟨v.pyStr, hh.symm⟩

/-- C2: FULL-mode reconciliation with a configured key column classifies each
local row into exactly one of update or create: the update list is exactly
the rows whose key hash is a key of the remote index, each paired with that
remote record's record id, the create list is exactly the complement, the
counts add up to the dataset size, and the plan contains no delete. -/
theorem full_mode_classification (md5 : String → String)
    (existing_index : List (String × BitableRecord)) (col : String) (df : List Row)
    (hcol : col ≠ "") (hmd5 : ∀ s, md5 s ≠ "") :
    (sync_full_bitable_classify md5 existing_index (some col) df).toUpdate.length +
        (sync_full_bitable_classify md5 existing_index (some col) df).toCreate.length =
      df.length ∧
    (sync_full_bitable_classify md5 existing_index (some col) df).toUpdate =
      df.filterMap (fun row =>
        match get_index_value_hash md5 row (some col) with
        | some h => (existing_index.lookup h).map (fun r => (r.record_id, row))
        | none => none) ∧
    (sync_full_bitable_classify md5 existing_index (some col) df).toCreate =
      df.filter (fun row =>
        match get_index_value_hash md5 row (some col) with
        | some h => (existing_index.lookup h).isNone
        | none => true) ∧
    (sync_full_bitable_classify md5 existing_index (some col) df).toDelete = [] := by
  induction df with
  | nil => simp [sync_full_bitable_classify]
  | cons row rest ih =>
    obtain ⟨ih1, ih2, ih3, ih4⟩ := ih
    cases hh : get_index_value_hash md5 row (some col) with
    | none =>
      rw [sync_full_bitable_classify]
      simp only [hh]
      refine ⟨?_, ?_, ?_, trivial⟩
      · simp only [List.length_cons]
        omega
      · simp only [List.filterMap_cons, hh]
        exact ih2
      · rw [List.filter_cons_of_pos (by simp [hh]), ih3]
    | some h =>
      have hne : h ≠ "" := by
        obtain ⟨s0, hs0⟩ := get_index_value_hash_eq_md5 md5 row (some col) h hh
        rw [hs0]
        exact hmd5 s0
      rw [sync_full_bitable_classify]
      simp only [hh]
      rw [if_neg hne]
      cases hl : existing_index.lookup h with
      | some record =>
        simp only [hl]
        refine ⟨?_, ?_, ?_, trivial⟩
        · simp only [List.length_cons]
          omega
        · simp only [List.filterMap_cons, hh, hl, Option.map_some']
          rw [ih2]
        · rw [List.filter_cons_of_neg (by simp [hh, hl]), ih3]
      | none =>
        simp only [hl]
        refine ⟨?_, ?_, ?_, trivial⟩
        · simp only [List.length_cons]
          omega
        · simp only [List.filterMap_cons, hh, hl, Option.map_none']
          exact ih2
        · rw [List.filter_cons_of_pos (by simp [hh, hl]), ih3]

/-- Witness for C2 at a concrete dataset: one matching row (updated, paired
with record id r1) and one row without the key column (created). -/
theorem full_mode_classification_witness :
    ("k" : String) ≠ "" ∧
    (sync_full_bitable_classify (fun _ => "h") [("h", ⟨"r1", []⟩)] (some "k")
        [[("k", CellValue.str "a")], []]).toUpdate.length +
      (sync_full_bitable_classify (fun _ => "h") [("h", ⟨"r1", []⟩)] (some "k")
        [[("k", CellValue.str "a")], []]).toCreate.length = 2 ∧
    (sync_full_bitable_classify (fun _ => "h") [("h", ⟨"r1", []⟩)] (some "k")
        [[("k", CellValue.str "a")], []]).toDelete = [] :=
  ⟨by decide,
    (full_mode_classification (fun _ => "h") [("h", ⟨"r1", []⟩)] "k"
      [[("k", CellValue.str "a")], []] (by decide)
      (fun _ => (by decide : ("h" : String) ≠ ""))).1,
    (full_mode_classification (fun _ => "h") [("h", ⟨"r1", []⟩)] "k"
      [[("k", CellValue.str "a")], []] (by decide)
      (fun _ => (by decide : ("h" : String) ≠ ""))).2.2.2⟩

/-- The batch slicing of `process_in_batches` concatenates back to the
original items, for any positive batch size. -/
theorem toBatches_flatten {β : Type} (batch_size : Nat) (hbs : 0 < batch_size) :
    ∀ items : List β, (toBatches batch_size items).flatten = items := by
  have key : ∀ (n : Nat) (items : List β), items.length ≤ n →
      (toBatches batch_size items).flatten = items := by
    intro n
    induction n with
    | zero =>
      intro items hle
      have hnil : items = [] := List.eq_nil_of_length_eq_zero (Nat.le_zero.mp hle)
      subst hnil
      simp [toBatches]
    | succ n ihn =>
      intro items hle
      by_cases hnil : items.length = 0
      · have : items = [] := List.eq_nil_of_length_eq_zero hnil
        subst this
        simp [toBatches]
      · rw [toBatches, dif_neg (not_or.mpr ⟨by omega, hnil⟩)]
        simp only [List.flatten_cons]
        rw [ihn (items.drop batch_size) (by simp only [List.length_drop]; omega)]
        exact List.take_append_drop _ _
  intro items
  exact key items.length items le_rfl

/-- `deletedIds` distributes over trace concatenation. -/
theorem deletedIds_append (a b : List RemoteOp) :
    deletedIds (a ++ b) = deletedIds a ++ deletedIds b := by
  induction a with
  | nil => rfl
  | cons op rest ih => cases op <;> simp [deletedIds, ih]

/-- `createdRows` distributes over trace concatenation. -/
theorem createdRows_append (a b : List RemoteOp) :
    createdRows (a ++ b) = createdRows a ++ createdRows b := by
  induction a with
  | nil => rfl
  | cons op rest ih => cases op <;> simp [createdRows, ih]

/-- The initial record listing deletes nothing. -/
theorem deletedIds_listRecords (rest : List RemoteOp) :
    deletedIds (RemoteOp.listRecords :: rest) = deletedIds rest := rfl

/-- The initial record listing creates nothing. -/
theorem createdRows_listRecords (rest : List RemoteOp) :
    createdRows (RemoteOp.listRecords :: rest) = createdRows rest := rfl

/-- A trace of delete batches deletes exactly their concatenated ids. -/
theorem deletedIds_map_batchDelete (L : List (List String)) :
    deletedIds (L.map RemoteOp.batchDelete) = L.flatten := by
  induction L with
  | nil => rfl
  | cons ids L ih => simp [deletedIds, ih]

/-- Create batches delete nothing. -/
theorem deletedIds_map_batchCreate (L : List (List Row)) :
    deletedIds (L.map RemoteOp.batchCreate) = [] := by
  induction L with
  | nil => rfl
  | cons rows L ih => simp [deletedIds, ih]

/-- A trace of create batches creates exactly their concatenated rows. -/
theorem createdRows_map_batchCreate (L : List (List Row)) :
    createdRows (L.map RemoteOp.batchCreate) = L.flatten := by
  induction L with
  | nil => rfl
  | cons rows L ih => simp [createdRows, ih]

/-- Delete batches create nothing. -/
theorem createdRows_map_batchDelete (L : List (List String)) :
    createdRows (L.map RemoteOp.batchDelete) = [] := by
  induction L with
  | nil => rfl
  | cons ids L ih => simp [createdRows, ih]

/-- C4: CLONE-mode reconciliation deletes exactly the record ids of all
existing remote records, creates exactly the local rows, and issues no
update at all — the mode never computes a key hash, so any key-hash overlap
between local and remote data is irrelevant by construction. -/
theorem clone_totality (existing_records : List BitableRecord) (df : List Row)
    (batch_size : Nat) (hbs : 0 < batch_size) :
    deletedIds (sync_clone_bitable existing_records df batch_size) =
      existing_records.map (fun record => record.record_id) ∧
    createdRows (sync_clone_bitable existing_records df batch_size) = df ∧
    ∀ records, RemoteOp.batchUpdate records ∉ sync_clone_bitable existing_records df batch_size := by
  refine ⟨?_, ?_, ?_⟩
  · unfold sync_clone_bitable
    rw [deletedIds_listRecords, deletedIds_append, deletedIds_map_batchDelete,
      deletedIds_map_batchCreate, toBatches_flatten _ hbs]
    simp
  · unfold sync_clone_bitable
    rw [createdRows_listRecords, createdRows_append, createdRows_map_batchDelete,
      createdRows_map_batchCreate, toBatches_flatten _ hbs]
    simp
  · intro records
    simp [sync_clone_bitable]

/-- Witness for C4 at a concrete remote state of three records and one local
row, batch size 2. -/
theorem clone_totality_witness :
    0 < 2 ∧
    deletedIds (sync_clone_bitable [⟨"r1", []⟩, ⟨"r2", []⟩, ⟨"r3", []⟩]
        [[("a", CellValue.str "1")]] 2) = ["r1", "r2", "r3"] ∧
    createdRows (sync_clone_bitable [⟨"r1", []⟩, ⟨"r2", []⟩, ⟨"r3", []⟩]
        [[("a", CellValue.str "1")]] 2) = [[("a", CellValue.str "1")]] :=
  ⟨by decide,
    (clone_totality [⟨"r1", []⟩, ⟨"r2", []⟩, ⟨"r3", []⟩] [[("a", CellValue.str "1")]] 2
      (by decide)).1,
    (clone_totality [⟨"r1", []⟩, ⟨"r2", []⟩, ⟨"r3", []⟩] [[("a", CellValue.str "1")]] 2
      (by decide)).2.1⟩

/-- C8: overwrite sync with no key column configured — None, or an empty
string, both falsy in the source's `if not self.config.index_column` guard —
returns failure with an empty remote-call trace: the sync fails before any
remote call is issued, and since the retry machinery of the request
controller only wraps remote calls, nothing is ever retried. -/
theorem overwrite_requires_key_column (md5 : String → String) (apiOk : RemoteOp → Bool)
    (existing_records : List BitableRecord) (df : List Row) (batch_size : Nat) :
    sync_overwrite md5 apiOk none existing_records df batch_size = (false, []) ∧
    sync_overwrite md5 apiOk (some "") existing_records df batch_size = (false, []) :=
  ⟨rfl, rfl⟩

/-- C9 counterexample: a null key value does NOT yield "no KeyHash".  The
source hashes `str(row[index_column])`, and `str` of a pandas NaN is the
text "nan", so the hash is `md5("nan")`; with the identity in place of md5,
the row matches a remote record indexed under "nan" and FULL mode places it
in the update path, not the create path. -/
theorem null_key_value_is_hashed :
    get_index_value_hash (fun s => s) [("k", CellValue.null)] (some "k") = some "nan" ∧
    (sync_full_bitable_classify (fun s => s) [("nan", ⟨"r1", []⟩)] (some "k")
        [[("k", CellValue.null)]]).toUpdate = [("r1", [("k", CellValue.null)])] ∧
    (sync_full_bitable_classify (fun s => s) [("nan", ⟨"r1", []⟩)] (some "k")
        [[("k", CellValue.null)]]).toCreate = [] :=
  ⟨rfl, rfl, rfl⟩

/-- C9 as amended: a local row from which the key column is entirely absent
yields no key hash and is always placed in the create path by every
key-matching mode — FULL creates it without updating, INCREMENTAL creates
it, OVERWRITE collects no delete for it.  (A null key value, by contrast, is
hashed as the stringified null "nan" and can match a remote record whose
extracted key stringifies identically — see the counterexample.) -/
theorem missing_key_column_forces_create (md5 : String → String)
    (existing_index : List (String × BitableRecord)) (col : String) (row : Row)
    (hrow : row.lookup col = none) (df : List Row) :
    get_index_value_hash md5 row (some col) = none ∧
    (sync_full_bitable_classify md5 existing_index (some col) (row :: df)).toUpdate =
      (sync_full_bitable_classify md5 existing_index (some col) df).toUpdate ∧
    (sync_full_bitable_classify md5 existing_index (some col) (row :: df)).toCreate =
      row :: (sync_full_bitable_classify md5 existing_index (some col) df).toCreate ∧
    sync_incremental_bitable_creates md5 existing_index (some col) (row :: df) =
      row :: sync_incremental_bitable_creates md5 existing_index (some col) df ∧
    overwriteDeleteIds md5 existing_index col (row :: df) =
      overwriteDeleteIds md5 existing_index col df := by
  have hh : get_index_value_hash md5 row (some col) = none := by
    simp only [get_index_value_hash]
    by_cases hc : col = ""
    · rw [if_pos hc]
    · rw [if_neg hc, hrow]
  refine ⟨hh, ?_, ?_, ?_, ?_⟩
  · rw [sync_full_bitable_classify]
    simp only [hh]
  · rw [sync_full_bitable_classify]
    simp only [hh]
  · rw [sync_incremental_bitable_creates]
    simp only [hh]
  · unfold overwriteDeleteIds
    rw [List.filterMap_cons]
    simp only [hh]

/-- Witness for the amended C9: a row carrying only column "x" never matches
under key column "k". -/
theorem missing_key_column_forces_create_witness :
    get_index_value_hash (fun _ => "h") [("x", CellValue.str "v")] (some "k") = none ∧
    sync_incremental_bitable_creates (fun _ => "h") [] (some "k")
        [[("x", CellValue.str "v")]] =
      [("x", CellValue.str "v")] ::
        sync_incremental_bitable_creates (fun _ => "h") [] (some "k") [] :=
  ⟨(missing_key_column_forces_create (fun _ => "h") [] "k" [("x", CellValue.str "v")] rfl []).1,
    (missing_key_column_forces_create (fun _ => "h") [] "k"
      [("x", CellValue.str "v")] rfl []).2.2.2.1⟩

end Engine

end XTF
